import Mathlib

/-!
Verification of `src/public/assets/Sprites/Monsters/resize.py`.

The script iterates over the indices 1..50, derives for each the filename
`str(i).zfill(3) + ".png"`, joins it with the directory that contains the
script, and — when the path exists — resizes the image at that path to
128×128 pixels with PIL's LANCZOS resampling filter, saving the result back
to the same path.  Every exception raised inside the per-file step is caught
and printed.

The embedding below models the filesystem as an association list from paths
to byte strings, and the PIL image library (which is external to the
repository) as an abstract structure `ImageLib` of the three operations the
script uses: `Image.open` (decode), `Image.resize`, and `Image.save`.
The script itself (`resize_image`, `main`) is translated line by line.
-/

namespace ResizePy

/-- A filesystem path, as the string produced by `os.path.join`. -/
abbrev Path := String

/-- Raw file contents: a byte string. -/
abbrev Bytes := List Nat

/-- A decoded in-memory image (models a `PIL.Image.Image`): its pixel
dimensions plus an abstract pixel payload. -/
structure Image where
  width : Nat
  height : Nat
  pixels : Nat
  deriving DecidableEq, Repr

/-- The resampling filters of `PIL.Image.Resampling` that matter here. -/
inductive Filter where
  | lanczos
  | nearest
  | bilinear
  deriving DecidableEq, Repr

/-- Outcome of `img.save(path)`: either the encoded bytes that were written,
or a raised exception carrying the message and the bytes (if any) that a
failed mid-write left at the path — PIL's save is not transactional. -/
inductive SaveOutcome where
  | written (b : Bytes)
  | failed (msg : String) (leftover : Option Bytes)
  deriving DecidableEq, Repr

/-- Model of the image library the script calls (PIL).  `decode` models
`Image.open` (it raises on data it cannot identify), `resizeOp` models
`img.resize(size, filter)` (a new image; may raise), and `save` models
`resized_img.save(path)` (encoding plus the write). -/
structure ImageLib where
  decode : Bytes → Except String Image
  resizeOp : Image → Nat × Nat → Filter → Except String Image
  save : Image → Path → SaveOutcome

/-- The filesystem: a finite map from paths to contents, as an
association list (first matching key wins). -/
abbrev FS := List (Path × Bytes)

/-- Contents at a path, `none` when no file exists there. -/
def fsRead (fs : FS) (p : Path) : Option Bytes :=
  match fs with
  | [] => none
  | e :: rest => if e.1 = p then some e.2 else fsRead rest p

/-- Overwrite (or create) the file at `p` with contents `b`. -/
def fsWrite (fs : FS) (p : Path) (b : Bytes) : FS :=
  match fs with
  | [] => [(p, b)]
  | e :: rest => if e.1 = p then (p, b) :: rest else e :: fsWrite rest p b

/-- `os.path.exists`. -/
def fsExists (fs : FS) (p : Path) : Bool :=
  (fsRead fs p).isSome

/-- `os.path.join(dir, name)` for a directory written without a trailing
separator, which is what `os.path.dirname` returns. -/
def joinPath (dir name : String) : Path :=
  dir ++ "/" ++ name

/-- Python's `str.zfill(width)` on the decimal rendering of a natural
number (no sign handling is needed: the script only passes 1..50). -/
def zfill (s : String) (width : Nat) : String :=
  if s.length < width then String.mk (List.replicate (width - s.length) '0') ++ s
  else s

/-- The console line `f"Successfully resized {file_path}"`. -/
def successLine (file_path : Path) : String :=
  "Successfully resized " ++ file_path

/-- The console line `f"Error processing {file_path}: {str(e)}"`. -/
def errorLine (file_path : Path) (e : String) : String :=
  "Error processing " ++ file_path ++ ": " ++ e

/-- The console line `f"File not found: {filename}"`. -/
def notFoundLine (filename : String) : String :=
  "File not found: " ++ filename

/-- The target size `(128, 128)` — the default value of `resize_image`'s
`size` parameter, with which `main` always calls it. -/
def targetSize : Nat × Nat := (128, 128)

/-- `resize_image(file_path, size)`: inside a `try`, open the image at
`file_path`, resize it with LANCZOS resampling, save it back to the same
path and print a success line; any exception is caught and printed as an
error line.  The result is the filesystem after the call together with the
list of console lines it printed. -/
def resize_image (lib : ImageLib) (fs : FS) (file_path : Path) (size : Nat × Nat) :
    FS × List String :=
  match fsRead fs file_path with
  | none =>
      -- `Image.open` raises `FileNotFoundError`, caught by the `except`.
      (fs, [errorLine file_path ("No such file or directory: " ++ file_path)])
  | some b =>
      match lib.decode b with
      | Except.error e => (fs, [errorLine file_path e])
      | Except.ok img =>
          match lib.resizeOp img size Filter.lanczos with
          | Except.error e => (fs, [errorLine file_path e])
          | Except.ok resized_img =>
              match lib.save resized_img file_path with
              | SaveOutcome.written outBytes =>
                  (fsWrite fs file_path outBytes, [successLine file_path])
              | SaveOutcome.failed e leftover =>
                  (match leftover with
                   | none => fs
                   | some partBytes => fsWrite fs file_path partBytes,
                   [errorLine file_path e])

/-- `filename = f"{str(i).zfill(3)}.png"`. -/
def filename (i : Nat) : String :=
  zfill (toString i) 3 ++ ".png"

/-- `file_path = os.path.join(current_dir, filename)`. -/
def file_path (current_dir : Path) (i : Nat) : Path :=
  joinPath current_dir (filename i)

/-- One iteration of `main`'s loop body at index `i`. -/
def step (lib : ImageLib) (current_dir : Path) (fs : FS) (i : Nat) : FS × List String :=
  if fsExists fs (file_path current_dir i) then
    resize_image lib fs (file_path current_dir i) targetSize
  else
    (fs, [notFoundLine (filename i)])

/-- The loop `for i in range(1, 51)` over an explicit index list, threading
the filesystem and accumulating the console output in order. -/
def runIndices (lib : ImageLib) (current_dir : Path) : List Nat → FS → FS × List String
  | [], fs => (fs, [])
  | i :: rest, fs =>
      let r := step lib current_dir fs i
      let r2 := runIndices lib current_dir rest r.1
      (r2.1, r.2 ++ r2.2)

/-- `main()`: process images from `001.png` to `050.png` in the script's
own directory (`current_dir = os.path.dirname(os.path.abspath(__file__))`,
kept abstract here). -/
def main (lib : ImageLib) (current_dir : Path) (fs : FS) : FS × List String :=
  runIndices lib current_dir (List.range' 1 50) fs

/-- The filesystem state just before `main`'s loop reaches index `i`. -/
def prefixFS (lib : ImageLib) (dir : Path) (fs : FS) (i : Nat) : FS :=
  (runIndices lib dir (List.range' 1 (i - 1)) fs).1

/-- The file at `q` (if there is one) decodes to an image of exactly
128×128 pixels. -/
def decodes128 (lib : ImageLib) (fs : FS) (q : Path) : Prop :=
  ∀ b, fsRead fs q = some b →
    ∃ im, lib.decode b = Except.ok im ∧ im.width = 128 ∧ im.height = 128

/-- A concrete well-behaved instance of the library model, used to
instantiate the theorems on explicit inputs: the byte string `[w, h, d]`
is the encoding of the image with width `w`, height `h` and payload `d`;
every other byte string is undecodable (a corrupt file). -/
def pngLib : ImageLib where
  decode b :=
    match b with
    | [w, h, d] => Except.ok ⟨w, h, d⟩
    | _ => Except.error "cannot identify image file"
  resizeOp im sz _f := Except.ok ⟨sz.1, sz.2, im.pixels⟩
  save im _p := SaveOutcome.written [im.width, im.height, im.pixels]

/-! ### Basic filesystem lemmas -/

theorem fsRead_fsWrite_self (fs : FS) (p : Path) (b : Bytes) :
    fsRead (fsWrite fs p b) p = some b := by
  induction fs with
  | nil => simp [fsWrite, fsRead]
  | cons e rest ih =>
      by_cases h : e.1 = p
      · simp [fsWrite, fsRead, h]
      · simp [fsWrite, fsRead, h, ih]

theorem fsRead_fsWrite_ne (fs : FS) (p q : Path) (b : Bytes) (h : q ≠ p) :
    fsRead (fsWrite fs p b) q = fsRead fs q := by
  induction fs with
  | nil => simp [fsWrite, fsRead, Ne.symm h]
  | cons e rest ih =>
      by_cases he : e.1 = p
      · subst he
        simp [fsWrite, fsRead, Ne.symm h]
      · simp only [fsWrite, if_neg he, fsRead]
        by_cases hq : e.1 = q <;> simp [hq, ih]

/-! ### String lemmas: the three console line forms are pairwise distinct
(they start with the characters `S`, `E` and `F` respectively), and
`os.path.join` with a fixed directory is injective in the filename. -/

theorem successLine_ne_errorLine (p q e : String) : successLine p ≠ errorLine q e := by
  intro h
  have h' := congrArg (fun s => s.data.head?) h
  simp only [successLine, errorLine, String.data_append, List.cons_append,
    List.head?_cons] at h'
  exact absurd h' (by decide)

theorem successLine_ne_notFoundLine (p f : String) : successLine p ≠ notFoundLine f := by
  intro h
  have h' := congrArg (fun s => s.data.head?) h
  simp only [successLine, notFoundLine, String.data_append, List.cons_append,
    List.head?_cons] at h'
  exact absurd h' (by decide)

theorem errorLine_ne_notFoundLine (q e f : String) : errorLine q e ≠ notFoundLine f := by
  intro h
  have h' := congrArg (fun s => s.data.head?) h
  simp only [errorLine, notFoundLine, String.data_append, List.cons_append,
    List.head?_cons] at h'
  exact absurd h' (by decide)

theorem joinPath_inj (d : String) {a b : String} (h : joinPath d a = joinPath d b) :
    a = b := by
  have h' := congrArg String.data h
  simp only [joinPath, String.data_append] at h'
  exact String.ext (List.append_cancel_left h')

/-- The fifty filenames the loop derives, written out. -/
theorem filename_range_eq :
    (List.range' 1 50).map filename =
      ["001.png", "002.png", "003.png", "004.png", "005.png", "006.png",
       "007.png", "008.png", "009.png", "010.png", "011.png", "012.png",
       "013.png", "014.png", "015.png", "016.png", "017.png", "018.png",
       "019.png", "020.png", "021.png", "022.png", "023.png", "024.png",
       "025.png", "026.png", "027.png", "028.png", "029.png", "030.png",
       "031.png", "032.png", "033.png", "034.png", "035.png", "036.png",
       "037.png", "038.png", "039.png", "040.png", "041.png", "042.png",
       "043.png", "044.png", "045.png", "046.png", "047.png", "048.png",
       "049.png", "050.png"] := by
  decide

theorem filename_nodup : ((List.range' 1 50).map filename).Nodup := by
  rw [filename_range_eq]
  decide

theorem filename_injOn {i j : Nat} (hi : i ∈ List.range' 1 50)
    (hj : j ∈ List.range' 1 50) (h : filename i = filename j) : i = j :=
  List.inj_on_of_nodup_map filename_nodup hi hj h

theorem file_path_injOn (dir : Path) {i j : Nat} (hi : i ∈ List.range' 1 50)
    (hj : j ∈ List.range' 1 50) (h : file_path dir i = file_path dir j) : i = j :=
  filename_injOn hi hj (joinPath_inj dir h)

/-! ### `resize_image`: one unfolding equation per control path -/

theorem resize_image_no_file (lib : ImageLib) (fs : FS) (p : Path) (sz : Nat × Nat)
    (hb : fsRead fs p = none) :
    resize_image lib fs p sz =
      (fs, [errorLine p ("No such file or directory: " ++ p)]) := by
  unfold resize_image
  simp only [hb]

theorem resize_image_decode_err (lib : ImageLib) (fs : FS) (p : Path) (sz : Nat × Nat)
    {b : Bytes} {e : String} (hb : fsRead fs p = some b)
    (hd : lib.decode b = Except.error e) :
    resize_image lib fs p sz = (fs, [errorLine p e]) := by
  unfold resize_image
  simp only [hb, hd]

theorem resize_image_resize_err (lib : ImageLib) (fs : FS) (p : Path) (sz : Nat × Nat)
    {b : Bytes} {img : Image} {e : String} (hb : fsRead fs p = some b)
    (hd : lib.decode b = Except.ok img)
    (hr : lib.resizeOp img sz Filter.lanczos = Except.error e) :
    resize_image lib fs p sz = (fs, [errorLine p e]) := by
  unfold resize_image
  simp only [hb, hd, hr]

theorem resize_image_saved (lib : ImageLib) (fs : FS) (p : Path) (sz : Nat × Nat)
    {b : Bytes} {img rimg : Image} {ob : Bytes} (hb : fsRead fs p = some b)
    (hd : lib.decode b = Except.ok img)
    (hr : lib.resizeOp img sz Filter.lanczos = Except.ok rimg)
    (hs : lib.save rimg p = SaveOutcome.written ob) :
    resize_image lib fs p sz = (fsWrite fs p ob, [successLine p]) := by
  unfold resize_image
  simp only [hb, hd, hr, hs]

theorem resize_image_save_failed (lib : ImageLib) (fs : FS) (p : Path) (sz : Nat × Nat)
    {b : Bytes} {img rimg : Image} {e : String} {w : Option Bytes}
    (hb : fsRead fs p = some b) (hd : lib.decode b = Except.ok img)
    (hr : lib.resizeOp img sz Filter.lanczos = Except.ok rimg)
    (hs : lib.save rimg p = SaveOutcome.failed e w) :
    resize_image lib fs p sz =
      (match w with | none => fs | some pb => fsWrite fs p pb, [errorLine p e]) := by
  unfold resize_image
  simp only [hb, hd, hr, hs]
  cases w <;> rfl

/-! ### `resize_image` and `step`: log shape and frame lemmas -/

theorem resize_image_log (lib : ImageLib) (fs : FS) (p : Path) (sz : Nat × Nat) :
    (resize_image lib fs p sz).2 = [successLine p] ∨
      ∃ e, (resize_image lib fs p sz).2 = [errorLine p e] := by
  cases hb : fsRead fs p with
  | none => rw [resize_image_no_file lib fs p sz hb]; exact Or.inr ⟨_, rfl⟩
  | some b =>
      cases hd : lib.decode b with
      | error e => rw [resize_image_decode_err lib fs p sz hb hd]; exact Or.inr ⟨e, rfl⟩
      | ok img =>
          cases hr : lib.resizeOp img sz Filter.lanczos with
          | error e => rw [resize_image_resize_err lib fs p sz hb hd hr]; exact Or.inr ⟨e, rfl⟩
          | ok rimg =>
              cases hs : lib.save rimg p with
              | written ob => rw [resize_image_saved lib fs p sz hb hd hr hs]; exact Or.inl rfl
              | failed e w =>
                  rw [resize_image_save_failed lib fs p sz hb hd hr hs]
                  exact Or.inr ⟨e, rfl⟩

theorem resize_image_fst (lib : ImageLib) (fs : FS) (p : Path) (sz : Nat × Nat) :
    (resize_image lib fs p sz).1 = fs ∨
      ∃ b, (resize_image lib fs p sz).1 = fsWrite fs p b := by
  cases hb : fsRead fs p with
  | none => rw [resize_image_no_file lib fs p sz hb]; exact Or.inl rfl
  | some b =>
      cases hd : lib.decode b with
      | error e => rw [resize_image_decode_err lib fs p sz hb hd]; exact Or.inl rfl
      | ok img =>
          cases hr : lib.resizeOp img sz Filter.lanczos with
          | error e => rw [resize_image_resize_err lib fs p sz hb hd hr]; exact Or.inl rfl
          | ok rimg =>
              cases hs : lib.save rimg p with
              | written ob =>
                  rw [resize_image_saved lib fs p sz hb hd hr hs]
                  exact Or.inr ⟨ob, rfl⟩
              | failed e w =>
                  rw [resize_image_save_failed lib fs p sz hb hd hr hs]
                  cases w with
                  | none => exact Or.inl rfl
                  | some pb => exact Or.inr ⟨pb, rfl⟩

theorem resize_image_frame (lib : ImageLib) (fs : FS) (p q : Path) (sz : Nat × Nat)
    (h : q ≠ p) : fsRead (resize_image lib fs p sz).1 q = fsRead fs q := by
  rcases resize_image_fst lib fs p sz with h1 | ⟨b, h1⟩
  · rw [h1]
  · rw [h1, fsRead_fsWrite_ne fs p q b h]

theorem step_log (lib : ImageLib) (dir : Path) (fs : FS) (i : Nat) :
    (step lib dir fs i).2 = [successLine (file_path dir i)] ∨
      (∃ e, (step lib dir fs i).2 = [errorLine (file_path dir i) e]) ∨
      (step lib dir fs i).2 = [notFoundLine (filename i)] := by
  unfold step
  by_cases h : fsExists fs (file_path dir i)
  · rw [if_pos h]
    rcases resize_image_log lib fs (file_path dir i) targetSize with h1 | ⟨e, h1⟩
    · exact Or.inl h1
    · exact Or.inr (Or.inl ⟨e, h1⟩)
  · rw [if_neg h]
    exact Or.inr (Or.inr rfl)

theorem step_log_length (lib : ImageLib) (dir : Path) (fs : FS) (i : Nat) :
    (step lib dir fs i).2.length = 1 := by
  rcases step_log lib dir fs i with h | ⟨e, h⟩ | h <;> simp [h]

theorem step_fst (lib : ImageLib) (dir : Path) (fs : FS) (i : Nat) :
    (step lib dir fs i).1 = fs ∨
      ∃ b, (step lib dir fs i).1 = fsWrite fs (file_path dir i) b := by
  unfold step
  by_cases h : fsExists fs (file_path dir i)
  · rw [if_pos h]
    exact resize_image_fst lib fs (file_path dir i) targetSize
  · rw [if_neg h]
    exact Or.inl rfl

theorem step_frame (lib : ImageLib) (dir : Path) (fs : FS) (i : Nat) (q : Path)
    (h : q ≠ file_path dir i) : fsRead (step lib dir fs i).1 q = fsRead fs q := by
  rcases step_fst lib dir fs i with h1 | ⟨b, h1⟩
  · rw [h1]
  · rw [h1, fsRead_fsWrite_ne fs (file_path dir i) q b h]

/-! ### `runIndices`: unfolding, decomposition, length and frame lemmas -/

theorem runIndices_nil (lib : ImageLib) (dir : Path) (fs : FS) :
    runIndices lib dir [] fs = (fs, []) := rfl

theorem runIndices_cons (lib : ImageLib) (dir : Path) (i : Nat) (is : List Nat) (fs : FS) :
    runIndices lib dir (i :: is) fs =
      ((runIndices lib dir is (step lib dir fs i).1).1,
       (step lib dir fs i).2 ++ (runIndices lib dir is (step lib dir fs i).1).2) := rfl

theorem runIndices_append (lib : ImageLib) (dir : Path) (xs ys : List Nat) (fs : FS) :
    runIndices lib dir (xs ++ ys) fs =
      ((runIndices lib dir ys (runIndices lib dir xs fs).1).1,
       (runIndices lib dir xs fs).2 ++ (runIndices lib dir ys (runIndices lib dir xs fs).1).2) := by
  induction xs generalizing fs with
  | nil => simp [runIndices_nil]
  | cons x xs ih =>
      simp only [List.cons_append, runIndices_cons, ih, List.append_assoc]

theorem runIndices_log_length (lib : ImageLib) (dir : Path) (is : List Nat) (fs : FS) :
    (runIndices lib dir is fs).2.length = is.length := by
  induction is generalizing fs with
  | nil => rfl
  | cons i is ih =>
      rw [runIndices_cons]
      simp [step_log_length, ih]
      omega

theorem runIndices_frame (lib : ImageLib) (dir : Path) (is : List Nat) (fs : FS) (q : Path)
    (h : ∀ i ∈ is, q ≠ file_path dir i) :
    fsRead (runIndices lib dir is fs).1 q = fsRead fs q := by
  induction is generalizing fs with
  | nil => rfl
  | cons i is ih =>
      rw [runIndices_cons]
      have h1 := ih (step lib dir fs i).1 (fun j hj => h j (List.mem_cons_of_mem _ hj))
      rw [h1, step_frame lib dir fs i q (h i (List.mem_cons_self _ _))]

/-- Splitting `range(1, 51)` around an index `i` it contains. -/
theorem range'_split (i : Nat) (h1 : 1 ≤ i) (h2 : i ≤ 50) :
    List.range' 1 50 = List.range' 1 (i - 1) ++ i :: List.range' (i + 1) (50 - i) := by
  have e2 := List.range'_append 1 (i - 1) (51 - i) 1
  have ha : 1 + 1 * (i - 1) = i := by omega
  have hb : 51 - i = (50 - i) + 1 := by omega
  rw [ha, hb, List.range'_succ] at e2
  have hc : 50 - i + 1 + (i - 1) = 50 := by omega
  rw [hc] at e2
  exact e2.symm

theorem main_decomp (lib : ImageLib) (dir : Path) (fs : FS) (i : Nat)
    (h1 : 1 ≤ i) (h2 : i ≤ 50) :
    main lib dir fs =
      ((runIndices lib dir (List.range' (i + 1) (50 - i))
          (step lib dir (prefixFS lib dir fs i) i).1).1,
       (runIndices lib dir (List.range' 1 (i - 1)) fs).2 ++
         (step lib dir (prefixFS lib dir fs i) i).2 ++
         (runIndices lib dir (List.range' (i + 1) (50 - i))
           (step lib dir (prefixFS lib dir fs i) i).1).2) := by
  rw [main, range'_split i h1 h2, runIndices_append, runIndices_cons]
  simp [prefixFS, List.append_assoc]

/-! ### Range membership and path distinctness helpers -/

theorem mem_range50_of_mem_prefix {i j : Nat} (hi : i ≤ 50)
    (hj : j ∈ List.range' 1 (i - 1)) : j ∈ List.range' 1 50 := by
  rw [List.mem_range'_1] at hj ⊢
  omega

theorem mem_range50_of_mem_suffix {i j : Nat} (hi : 1 ≤ i)
    (hj : j ∈ List.range' (i + 1) (50 - i)) : j ∈ List.range' 1 50 := by
  rw [List.mem_range'_1] at hj ⊢
  omega

theorem file_path_ne (dir : Path) {i j : Nat} (hi : i ∈ List.range' 1 50)
    (hj : j ∈ List.range' 1 50) (hij : i ≠ j) :
    file_path dir i ≠ file_path dir j :=
  fun h => hij (file_path_injOn dir hi hj h)

/-! ### The loop only looks at the fifty derived paths: congruence lemmas -/

theorem resize_image_congr (lib : ImageLib) (fs₁ fs₂ : FS) (p : Path) (sz : Nat × Nat)
    (h : fsRead fs₁ p = fsRead fs₂ p) :
    (resize_image lib fs₁ p sz).2 = (resize_image lib fs₂ p sz).2 ∧
      fsRead (resize_image lib fs₁ p sz).1 p = fsRead (resize_image lib fs₂ p sz).1 p := by
  cases hb : fsRead fs₂ p with
  | none =>
      rw [resize_image_no_file lib fs₁ p sz (h.trans hb),
        resize_image_no_file lib fs₂ p sz hb]
      exact ⟨rfl, h⟩
  | some b =>
      have hb1 : fsRead fs₁ p = some b := h.trans hb
      cases hd : lib.decode b with
      | error e =>
          rw [resize_image_decode_err lib fs₁ p sz hb1 hd,
            resize_image_decode_err lib fs₂ p sz hb hd]
          exact ⟨rfl, h⟩
      | ok img =>
          cases hr : lib.resizeOp img sz Filter.lanczos with
          | error e =>
              rw [resize_image_resize_err lib fs₁ p sz hb1 hd hr,
                resize_image_resize_err lib fs₂ p sz hb hd hr]
              exact ⟨rfl, h⟩
          | ok rimg =>
              cases hs : lib.save rimg p with
              | written ob =>
                  rw [resize_image_saved lib fs₁ p sz hb1 hd hr hs,
                    resize_image_saved lib fs₂ p sz hb hd hr hs]
                  exact ⟨rfl, by rw [fsRead_fsWrite_self, fsRead_fsWrite_self]⟩
              | failed e w =>
                  rw [resize_image_save_failed lib fs₁ p sz hb1 hd hr hs,
                    resize_image_save_failed lib fs₂ p sz hb hd hr hs]
                  cases w with
                  | none => exact ⟨rfl, h⟩
                  | some pb =>
                      exact ⟨rfl, by rw [fsRead_fsWrite_self, fsRead_fsWrite_self]⟩

theorem step_congr (lib : ImageLib) (dir : Path) (fs₁ fs₂ : FS) (i : Nat)
    (h : fsRead fs₁ (file_path dir i) = fsRead fs₂ (file_path dir i)) :
    (step lib dir fs₁ i).2 = (step lib dir fs₂ i).2 ∧
      fsRead (step lib dir fs₁ i).1 (file_path dir i) =
        fsRead (step lib dir fs₂ i).1 (file_path dir i) := by
  unfold step fsExists
  rw [h]
  by_cases hx : (fsRead fs₂ (file_path dir i)).isSome = true
  · rw [if_pos hx, if_pos hx]
    exact resize_image_congr lib fs₁ fs₂ (file_path dir i) targetSize h
  · rw [if_neg hx, if_neg hx]
    exact ⟨rfl, h⟩

theorem runIndices_congr (lib : ImageLib) (dir : Path) (is : List Nat) (ps : List Path)
    (hsub : ∀ i ∈ is, file_path dir i ∈ ps) :
    ∀ fs₁ fs₂, (∀ q ∈ ps, fsRead fs₁ q = fsRead fs₂ q) →
      (runIndices lib dir is fs₁).2 = (runIndices lib dir is fs₂).2 ∧
        ∀ q ∈ ps, fsRead (runIndices lib dir is fs₁).1 q =
          fsRead (runIndices lib dir is fs₂).1 q := by
  induction is with
  | nil => exact fun fs₁ fs₂ h => ⟨rfl, h⟩
  | cons i is ih =>
      intro fs₁ fs₂ h
      have hpi : file_path dir i ∈ ps := hsub i (List.mem_cons_self _ _)
      have hstep := step_congr lib dir fs₁ fs₂ i (h _ hpi)
      have hnext : ∀ q ∈ ps, fsRead (step lib dir fs₁ i).1 q =
          fsRead (step lib dir fs₂ i).1 q := by
        intro q hq
        by_cases hqp : q = file_path dir i
        · rw [hqp]; exact hstep.2
        · rw [step_frame lib dir fs₁ i q hqp, step_frame lib dir fs₂ i q hqp]
          exact h q hq
      have ih' := ih (fun j hj => hsub j (List.mem_cons_of_mem _ hj)) _ _ hnext
      constructor
      · rw [runIndices_cons, runIndices_cons]
        simp only []
        rw [hstep.1, ih'.1]
      · intro q hq
        rw [runIndices_cons, runIndices_cons]
        exact ih'.2 q hq

/-! ### Dimension invariant: every written file decodes to 128×128 -/

theorem step_decodes128_self (lib : ImageLib) (dir : Path) (fs : FS) (i : Nat)
    (hres : ∀ im sz f out, lib.resizeOp im sz f = Except.ok out →
      out.width = sz.1 ∧ out.height = sz.2)
    (hround : ∀ im p bw, lib.save im p = SaveOutcome.written bw →
      ∃ im', lib.decode bw = Except.ok im' ∧ im'.width = im.width ∧ im'.height = im.height)
    (hsave : ∀ im p, ∃ bw, lib.save im p = SaveOutcome.written bw)
    (hgood : decodes128 lib fs (file_path dir i)) :
    decodes128 lib (step lib dir fs i).1 (file_path dir i) := by
  cases hb : fsRead fs (file_path dir i) with
  | none =>
      have hex : fsExists fs (file_path dir i) = false := by rw [fsExists, hb]; rfl
      intro b hbq
      rw [step, hex] at hbq
      simp only [Bool.false_eq_true, if_false] at hbq
      exact hgood b hbq
  | some b =>
      have hex : fsExists fs (file_path dir i) = true := by rw [fsExists, hb]; rfl
      have hstep : step lib dir fs i =
          resize_image lib fs (file_path dir i) targetSize := by
        rw [step, hex]
        simp
      rw [hstep]
      cases hd : lib.decode b with
      | error e =>
          rw [resize_image_decode_err lib fs (file_path dir i) targetSize hb hd]
          exact hgood
      | ok img =>
          cases hr : lib.resizeOp img targetSize Filter.lanczos with
          | error e =>
              rw [resize_image_resize_err lib fs (file_path dir i) targetSize hb hd hr]
              exact hgood
          | ok rimg =>
              obtain ⟨bw, hs⟩ := hsave rimg (file_path dir i)
              rw [resize_image_saved lib fs (file_path dir i) targetSize hb hd hr hs]
              intro b' hb'
              rw [fsRead_fsWrite_self] at hb'
              obtain ⟨im', hdec, hw, hh⟩ := hround rimg (file_path dir i) bw hs
              have hdims := hres img targetSize Filter.lanczos rimg hr
              refine ⟨im', ?_, ?_, ?_⟩
              · rw [← Option.some.inj hb']; exact hdec
              · rw [hw, hdims.1]; rfl
              · rw [hh, hdims.2]; rfl

theorem step_decodes128 (lib : ImageLib) (dir : Path) (fs : FS) (i : Nat) (q : Path)
    (hres : ∀ im sz f out, lib.resizeOp im sz f = Except.ok out →
      out.width = sz.1 ∧ out.height = sz.2)
    (hround : ∀ im p bw, lib.save im p = SaveOutcome.written bw →
      ∃ im', lib.decode bw = Except.ok im' ∧ im'.width = im.width ∧ im'.height = im.height)
    (hsave : ∀ im p, ∃ bw, lib.save im p = SaveOutcome.written bw)
    (hgood : decodes128 lib fs q) :
    decodes128 lib (step lib dir fs i).1 q := by
  by_cases hqp : q = file_path dir i
  · rw [hqp]
    exact step_decodes128_self lib dir fs i hres hround hsave (hqp ▸ hgood)
  · intro b hbq
    rw [step_frame lib dir fs i q hqp] at hbq
    exact hgood b hbq

theorem runIndices_decodes128 (lib : ImageLib) (dir : Path) (is : List Nat) (q : Path)
    (hres : ∀ im sz f out, lib.resizeOp im sz f = Except.ok out →
      out.width = sz.1 ∧ out.height = sz.2)
    (hround : ∀ im p bw, lib.save im p = SaveOutcome.written bw →
      ∃ im', lib.decode bw = Except.ok im' ∧ im'.width = im.width ∧ im'.height = im.height)
    (hsave : ∀ im p, ∃ bw, lib.save im p = SaveOutcome.written bw) :
    ∀ fs, decodes128 lib fs q → decodes128 lib (runIndices lib dir is fs).1 q := by
  induction is with
  | nil => exact fun fs h => h
  | cons i is ih =>
      intro fs h
      exact ih _ (step_decodes128 lib dir fs i q hres hround hsave h)

/-! ## The claims -/

set_option maxRecDepth 10000

/-- C2: for every file path passed to the resize operation, any exception
raised during decoding, resampling, or encoding is caught inside the
per-file processing step and reported on the console with the file path and
the error description; the operation always returns normally (one success
line, or one error line naming the path and the error), so nothing
propagates to the batch loop, which always runs one step per index. -/
theorem claim_C2_errors_contained (lib : ImageLib) (fs : FS) (p : Path) (sz : Nat × Nat) :
    ((resize_image lib fs p sz).2 = [successLine p] ∨
      ∃ e, (resize_image lib fs p sz).2 = [errorLine p e]) ∧
    ∀ (dir : Path) (is : List Nat) (fs₀ : FS),
      (runIndices lib dir is fs₀).2.length = is.length :=
  ⟨resize_image_log lib fs p sz,
   fun dir is fs₀ => runIndices_log_length lib dir is fs₀⟩

/-- C4: for every library behavior and every initial filesystem (hence
every combination of per-file outcomes), `main` is a total function that
processes all 50 indices — its console log has exactly 50 lines, one per
index — and returns normally, with no distinct failure outcome. -/
theorem claim_C4_always_completes (lib : ImageLib) (dir : Path) (fs : FS) :
    (main lib dir fs).2.length = 50 := by
  rw [main, runIndices_log_length, List.length_range']

/-- C3: the batch loop considers exactly the integers 1..50; the filename
derived for each is the zero-padded 3-digit index followed by `.png`
(written out below), joined with the script's directory; and no other path
is ever considered: both the console output and the final contents of the
fifty derived paths depend only on the initial contents of those same
fifty paths. -/
theorem claim_C3_exact_scope (lib : ImageLib) (dir : Path) (fs₁ fs₂ : FS)
    (h : ∀ i ∈ List.range' 1 50,
      fsRead fs₁ (file_path dir i) = fsRead fs₂ (file_path dir i)) :
    (List.range' 1 50).map filename =
      ["001.png", "002.png", "003.png", "004.png", "005.png", "006.png",
       "007.png", "008.png", "009.png", "010.png", "011.png", "012.png",
       "013.png", "014.png", "015.png", "016.png", "017.png", "018.png",
       "019.png", "020.png", "021.png", "022.png", "023.png", "024.png",
       "025.png", "026.png", "027.png", "028.png", "029.png", "030.png",
       "031.png", "032.png", "033.png", "034.png", "035.png", "036.png",
       "037.png", "038.png", "039.png", "040.png", "041.png", "042.png",
       "043.png", "044.png", "045.png", "046.png", "047.png", "048.png",
       "049.png", "050.png"] ∧
    (∀ i, file_path dir i = joinPath dir (filename i)) ∧
    (main lib dir fs₁).2 = (main lib dir fs₂).2 ∧
    ∀ i ∈ List.range' 1 50,
      fsRead (main lib dir fs₁).1 (file_path dir i) =
        fsRead (main lib dir fs₂).1 (file_path dir i) := by
  have hcongr := runIndices_congr lib dir (List.range' 1 50)
    ((List.range' 1 50).map (file_path dir))
    (fun i hi => List.mem_map_of_mem _ hi) fs₁ fs₂
    (by
      intro q hq
      obtain ⟨i, hi, rfl⟩ := List.mem_map.1 hq
      exact h i hi)
  refine ⟨filename_range_eq, fun i => rfl, ?_, ?_⟩
  · rw [main, main]
    exact hcongr.1
  · intro i hi
    rw [main, main]
    exact hcongr.2 (file_path dir i) (List.mem_map_of_mem _ hi)

/-- Witness for C3 at a concrete input (empty filesystems on both sides). -/
theorem claim_C3_exact_scope_witness :
    (List.range' 1 50).map filename =
      ["001.png", "002.png", "003.png", "004.png", "005.png", "006.png",
       "007.png", "008.png", "009.png", "010.png", "011.png", "012.png",
       "013.png", "014.png", "015.png", "016.png", "017.png", "018.png",
       "019.png", "020.png", "021.png", "022.png", "023.png", "024.png",
       "025.png", "026.png", "027.png", "028.png", "029.png", "030.png",
       "031.png", "032.png", "033.png", "034.png", "035.png", "036.png",
       "037.png", "038.png", "039.png", "040.png", "041.png", "042.png",
       "043.png", "044.png", "045.png", "046.png", "047.png", "048.png",
       "049.png", "050.png"] ∧
    (∀ i, file_path "d" i = joinPath "d" (filename i)) ∧
    (main pngLib "d" []).2 = (main pngLib "d" []).2 ∧
    ∀ i ∈ List.range' 1 50,
      fsRead (main pngLib "d" []).1 (file_path "d" i) =
        fsRead (main pngLib "d" []).1 (file_path "d" i) :=
  claim_C3_exact_scope pngLib "d" [] [] (fun _ _ => rfl)

/-- C7: any path different from all fifty derived paths — any file outside
the name pattern `NNN.png` for `NNN` in `001..050` in the script's
directory, or any file elsewhere — has byte-identical contents before and
after an invocation of `main`. -/
theorem claim_C7_frame (lib : ImageLib) (dir : Path) (fs : FS) (p : Path)
    (h : ∀ i ∈ List.range' 1 50, p ≠ file_path dir i) :
    fsRead (main lib dir fs).1 p = fsRead fs p := by
  rw [main]
  exact runIndices_frame lib dir _ fs p h

/-- Witness for C7: a file named `other.txt` in the script's directory is
untouched. -/
theorem claim_C7_frame_witness :
    fsRead (main pngLib "d" [("d/other.txt", [1, 2, 3])]).1 "d/other.txt" =
      fsRead [("d/other.txt", [1, 2, 3])] "d/other.txt" :=
  claim_C7_frame pngLib "d" [("d/other.txt", [1, 2, 3])] "d/other.txt" (by decide)

/-- C5: for every index `i` in 1..50 whose derived path does not exist at
scan time, `main` prints the "file not found" line naming the filename,
and creates no file at that path: after the whole run the path still has
no file. -/
theorem claim_C5_not_found (lib : ImageLib) (dir : Path) (fs : FS) (i : Nat)
    (hi : i ∈ List.range' 1 50) (h : fsRead fs (file_path dir i) = none) :
    notFoundLine (filename i) ∈ (main lib dir fs).2 ∧
      fsRead (main lib dir fs).1 (file_path dir i) = none := by
  obtain ⟨h1, h2⟩ := List.mem_range'_1.mp hi
  have h2' : i ≤ 50 := by omega
  have hpre_ne : ∀ j ∈ List.range' 1 (i - 1), file_path dir i ≠ file_path dir j := by
    intro j hj
    have hj50 := mem_range50_of_mem_prefix h2' hj
    have hjlt : j < i := by rw [List.mem_range'_1] at hj; omega
    exact file_path_ne dir hi hj50 (by omega)
  have hsuf_ne : ∀ j ∈ List.range' (i + 1) (50 - i),
      file_path dir i ≠ file_path dir j := by
    intro j hj
    have hj50 := mem_range50_of_mem_suffix h1 hj
    have hjgt : i < j := by rw [List.mem_range'_1] at hj; omega
    exact file_path_ne dir hi hj50 (by omega)
  have hpre : fsRead (prefixFS lib dir fs i) (file_path dir i) = none := by
    rw [prefixFS, runIndices_frame lib dir _ fs _ hpre_ne]
    exact h
  have hex : fsExists (prefixFS lib dir fs i) (file_path dir i) = false := by
    rw [fsExists, hpre]
    rfl
  have hstep : step lib dir (prefixFS lib dir fs i) i =
      (prefixFS lib dir fs i, [notFoundLine (filename i)]) := by
    rw [step, hex]
    simp
  have hdec := main_decomp lib dir fs i h1 h2'
  constructor
  · rw [hdec]
    simp only [hstep, List.mem_append, List.mem_singleton]
    simp
  · rw [hdec]
    simp only [hstep]
    rw [runIndices_frame lib dir _ _ _ hsuf_ne]
    exact hpre

/-- Witness for C5: on an empty filesystem, index 1 yields a
"File not found: 001.png" line and still no file afterwards. -/
theorem claim_C5_not_found_witness :
    notFoundLine (filename 1) ∈ (main pngLib "d" []).2 ∧
      fsRead (main pngLib "d" []).1 (file_path "d" 1) = none :=
  claim_C5_not_found pngLib "d" [] 1 (by decide) rfl

/-- The loop iterations before index `i` do not touch index `i`'s path. -/
theorem prefixFS_read (lib : ImageLib) (dir : Path) (fs : FS) {i : Nat}
    (hi : i ∈ List.range' 1 50) :
    fsRead (prefixFS lib dir fs i) (file_path dir i) = fsRead fs (file_path dir i) := by
  obtain ⟨h1, h2⟩ := List.mem_range'_1.mp hi
  apply runIndices_frame
  intro j hj
  have hj50 := mem_range50_of_mem_prefix (by omega) hj
  have hjlt : j < i := by rw [List.mem_range'_1] at hj; omega
  exact file_path_ne dir hi hj50 (by omega)

/-- The loop iterations after index `i` do not touch index `i`'s path, so
the final contents at that path are whatever `i`'s own step left there. -/
theorem main_read_step (lib : ImageLib) (dir : Path) (fs : FS) {i : Nat}
    (hi : i ∈ List.range' 1 50) :
    fsRead (main lib dir fs).1 (file_path dir i) =
      fsRead (step lib dir (prefixFS lib dir fs i) i).1 (file_path dir i) := by
  obtain ⟨h1, h2⟩ := List.mem_range'_1.mp hi
  rw [main_decomp lib dir fs i h1 (by omega)]
  apply runIndices_frame
  intro j hj
  have hj50 := mem_range50_of_mem_suffix h1 hj
  have hjgt : i < j := by rw [List.mem_range'_1] at hj; omega
  exact file_path_ne dir hi hj50 (by omega)

/-- C6: the resize operation on an existing path decodes the image found
there, resamples it — with the LANCZOS filter, at exactly the target size
128×128 — and writes the encoded result back to the same path, replacing
the previous contents in place. -/
theorem claim_C6_resize_in_place (lib : ImageLib) (fs : FS) (p : Path)
    (b : Bytes) (img rimg : Image) (ob : Bytes)
    (hres : ∀ im sz f out, lib.resizeOp im sz f = Except.ok out →
      out.width = sz.1 ∧ out.height = sz.2)
    (hb : fsRead fs p = some b)
    (hd : lib.decode b = Except.ok img)
    (hr : lib.resizeOp img targetSize Filter.lanczos = Except.ok rimg)
    (hs : lib.save rimg p = SaveOutcome.written ob) :
    resize_image lib fs p targetSize = (fsWrite fs p ob, [successLine p]) ∧
      rimg.width = 128 ∧ rimg.height = 128 ∧
      fsRead (resize_image lib fs p targetSize).1 p = some ob := by
  have h1 := resize_image_saved lib fs p targetSize hb hd hr hs
  have hdims := hres img targetSize Filter.lanczos rimg hr
  refine ⟨h1, ?_, ?_, ?_⟩
  · rw [hdims.1]; rfl
  · rw [hdims.2]; rfl
  · rw [h1]; exact fsRead_fsWrite_self fs p ob

/-- Witness for C6: a concrete 256×256 image is rewritten in place as a
128×128 image. -/
theorem claim_C6_resize_in_place_witness :
    resize_image pngLib [("d/001.png", [256, 256, 7])] "d/001.png" targetSize =
      (fsWrite [("d/001.png", [256, 256, 7])] "d/001.png" [128, 128, 7],
       [successLine "d/001.png"]) ∧
      (⟨128, 128, 7⟩ : Image).width = 128 ∧ (⟨128, 128, 7⟩ : Image).height = 128 ∧
      fsRead (resize_image pngLib [("d/001.png", [256, 256, 7])] "d/001.png"
        targetSize).1 "d/001.png" = some [128, 128, 7] :=
  claim_C6_resize_in_place pngLib [("d/001.png", [256, 256, 7])] "d/001.png"
    [256, 256, 7] ⟨256, 256, 7⟩ ⟨128, 128, 7⟩ [128, 128, 7]
    (by
      intro im sz f out h
      injection h with h'
      subst h'
      exact ⟨rfl, rfl⟩)
    rfl rfl rfl rfl

/-- C9: if the per-file processing of an existing file fails during
decoding or during resampling — before the save step is reached — then no
write happens: the whole filesystem, in particular the file's bytes at
that path, is exactly what it was before the operation. -/
theorem claim_C9_no_write_before_save (lib : ImageLib) (fs : FS) (p : Path)
    (sz : Nat × Nat) (b : Bytes)
    (hb : fsRead fs p = some b)
    (hfail : ∀ img, lib.decode b = Except.ok img →
      ∃ e, lib.resizeOp img sz Filter.lanczos = Except.error e) :
    (resize_image lib fs p sz).1 = fs := by
  cases hd : lib.decode b with
  | error e => rw [resize_image_decode_err lib fs p sz hb hd]
  | ok img =>
      obtain ⟨e, hr⟩ := hfail img hd
      rw [resize_image_resize_err lib fs p sz hb hd hr]

/-- Witness for C9: a corrupt file (two bytes) fails to decode and is left
untouched. -/
theorem claim_C9_no_write_before_save_witness :
    (resize_image pngLib [("d/001.png", [1, 2])] "d/001.png" targetSize).1 =
      [("d/001.png", [1, 2])] :=
  claim_C9_no_write_before_save pngLib [("d/001.png", [1, 2])] "d/001.png"
    targetSize [1, 2] rfl
    (by
      intro img h
      rw [show pngLib.decode [1, 2] = Except.error "cannot identify image file"
        from rfl] at h
      cases h)

/-- C1, as stated, is false: a file that exists before the invocation is
not necessarily 128×128 afterwards, because a file whose bytes do not
decode (a corrupt file) is left untouched by the caught per-file failure.
Concretely, with `001.png` holding the four undecodable bytes
`[9, 9, 9, 9]`, the file still exists after `main` but decodes to no
image at all. -/
theorem claim_C1_counterexample :
    ¬ ∀ (lib : ImageLib) (dir : Path) (fs : FS) (i : Nat),
        i ∈ List.range' 1 50 →
        fsExists fs (file_path dir i) = true →
        fsExists (main lib dir fs).1 (file_path dir i) = true ∧
          ∃ b im, fsRead (main lib dir fs).1 (file_path dir i) = some b ∧
            lib.decode b = Except.ok im ∧ im.width = 128 ∧ im.height = 128 := by
  intro hclaim
  obtain ⟨-, b, im, hb, hdec, -, -⟩ :=
    hclaim pngLib "d" [("d/001.png", [9, 9, 9, 9])] 1 (by decide) (by decide)
  have hfs : fsRead (main pngLib "d" [("d/001.png", [9, 9, 9, 9])]).1
      (file_path "d" 1) = some [9, 9, 9, 9] := by decide
  rw [hfs] at hb
  obtain rfl := Option.some.inj hb
  rw [show pngLib.decode [9, 9, 9, 9] =
    Except.error "cannot identify image file" from rfl] at hdec
  exact Except.noConfusion hdec

/-- C1 (amended): for every `i` in 1..50, if the file at the derived path
exists before invocation, decodes successfully, and its resize and save
both succeed — with a library whose resize returns the requested
dimensions and whose saved bytes decode back with the saved image's
dimensions — then after invocation the file still exists and its decoded
dimensions are exactly 128×128. -/
theorem claim_C1_amended (lib : ImageLib) (dir : Path) (fs : FS) (i : Nat)
    (b : Bytes) (img rimg : Image) (ob b' : Bytes)
    (hres : ∀ im sz f out, lib.resizeOp im sz f = Except.ok out →
      out.width = sz.1 ∧ out.height = sz.2)
    (hround : ∀ im p bw, lib.save im p = SaveOutcome.written bw →
      ∃ im', lib.decode bw = Except.ok im' ∧ im'.width = im.width ∧
        im'.height = im.height)
    (hi : i ∈ List.range' 1 50)
    (hb : fsRead fs (file_path dir i) = some b)
    (hd : lib.decode b = Except.ok img)
    (hr : lib.resizeOp img targetSize Filter.lanczos = Except.ok rimg)
    (hs : lib.save rimg (file_path dir i) = SaveOutcome.written ob)
    (hb' : fsRead (main lib dir fs).1 (file_path dir i) = some b') :
    fsExists (main lib dir fs).1 (file_path dir i) = true ∧
      ∃ im', lib.decode b' = Except.ok im' ∧ im'.width = 128 ∧
        im'.height = 128 := by
  have hpre : fsRead (prefixFS lib dir fs i) (file_path dir i) = some b :=
    (prefixFS_read lib dir fs hi).trans hb
  have hex : fsExists (prefixFS lib dir fs i) (file_path dir i) = true := by
    rw [fsExists, hpre]; rfl
  have hstep : step lib dir (prefixFS lib dir fs i) i =
      resize_image lib (prefixFS lib dir fs i) (file_path dir i) targetSize := by
    rw [step, hex]; simp
  have hread : fsRead (main lib dir fs).1 (file_path dir i) = some ob := by
    rw [main_read_step lib dir fs hi, hstep,
      resize_image_saved lib (prefixFS lib dir fs i) (file_path dir i) targetSize
        hpre hd hr hs]
    exact fsRead_fsWrite_self _ _ _
  have hbo : b' = ob := by
    rw [hread] at hb'
    exact (Option.some.inj hb').symm
  obtain ⟨im', hdec, hw, hh⟩ := hround rimg (file_path dir i) ob hs
  have hdims := hres img targetSize Filter.lanczos rimg hr
  refine ⟨by rw [fsExists, hread]; rfl, im', ?_, ?_, ?_⟩
  · rw [hbo]; exact hdec
  · rw [hw, hdims.1]; rfl
  · rw [hh, hdims.2]; rfl

/-- Witness for the amended C1: a 256×256 image at `001.png` is 128×128
after the run. -/
theorem claim_C1_amended_witness :
    fsExists (main pngLib "d" [("d/001.png", [256, 256, 7])]).1
      (file_path "d" 1) = true ∧
      ∃ im', pngLib.decode [128, 128, 7] = Except.ok im' ∧ im'.width = 128 ∧
        im'.height = 128 :=
  claim_C1_amended pngLib "d" [("d/001.png", [256, 256, 7])] 1
    [256, 256, 7] ⟨256, 256, 7⟩ ⟨128, 128, 7⟩ [128, 128, 7] [128, 128, 7]
    (by
      intro im sz f out h
      injection h with h'
      subst h'
      exact ⟨rfl, rfl⟩)
    (by
      intro im p bw h
      injection h with h'
      subst h'
      exact ⟨⟨im.width, im.height, im.pixels⟩, rfl, rfl, rfl⟩)
    (by decide) rfl rfl rfl rfl (by decide)

/-- C8: with a library whose resize returns the requested dimensions,
whose saved bytes decode back with the saved dimensions, and whose saves
succeed, running `main` twice on a directory whose in-range files all
decode to 128×128 leaves every in-range file decoding to exactly 128×128
after the first run and after the second run: no dimension drift. -/
theorem claim_C8_idempotent (lib : ImageLib) (dir : Path) (fs : FS) (i : Nat)
    (b₁ b₂ : Bytes)
    (hres : ∀ im sz f out, lib.resizeOp im sz f = Except.ok out →
      out.width = sz.1 ∧ out.height = sz.2)
    (hround : ∀ im p bw, lib.save im p = SaveOutcome.written bw →
      ∃ im', lib.decode bw = Except.ok im' ∧ im'.width = im.width ∧
        im'.height = im.height)
    (hsave : ∀ im p, ∃ bw, lib.save im p = SaveOutcome.written bw)
    (hvalid : ∀ j ∈ List.range' 1 50, decodes128 lib fs (file_path dir j))
    (hi : i ∈ List.range' 1 50)
    (hb₁ : fsRead (main lib dir fs).1 (file_path dir i) = some b₁)
    (hb₂ : fsRead (main lib dir (main lib dir fs).1).1 (file_path dir i) = some b₂) :
    (∃ im, lib.decode b₁ = Except.ok im ∧ im.width = 128 ∧ im.height = 128) ∧
      ∃ im, lib.decode b₂ = Except.ok im ∧ im.width = 128 ∧ im.height = 128 := by
  have g1 : decodes128 lib (main lib dir fs).1 (file_path dir i) :=
    runIndices_decodes128 lib dir (List.range' 1 50) (file_path dir i)
      hres hround hsave fs (hvalid i hi)
  have g2 : decodes128 lib (main lib dir (main lib dir fs).1).1 (file_path dir i) :=
    runIndices_decodes128 lib dir (List.range' 1 50) (file_path dir i)
      hres hround hsave _ g1
  exact ⟨g1 b₁ hb₁, g2 b₂ hb₂⟩

/-- Witness for C8: a single valid 128×128 file, run through `main` twice. -/
theorem claim_C8_idempotent_witness :
    (∃ im, pngLib.decode [128, 128, 5] = Except.ok im ∧ im.width = 128 ∧
      im.height = 128) ∧
    ∃ im, pngLib.decode [128, 128, 5] = Except.ok im ∧ im.width = 128 ∧
      im.height = 128 :=
  claim_C8_idempotent pngLib "d" [("d/001.png", [128, 128, 5])] 1
    [128, 128, 5] [128, 128, 5]
    (by
      intro im sz f out h
      injection h with h'
      subst h'
      exact ⟨rfl, rfl⟩)
    (by
      intro im p bw h
      injection h with h'
      subst h'
      exact ⟨⟨im.width, im.height, im.pixels⟩, rfl, rfl, rfl⟩)
    (fun im p => ⟨[im.width, im.height, im.pixels], rfl⟩)
    (by
      intro j hj b hbq
      simp only [fsRead] at hbq
      by_cases hq : ("d/001.png" : String) = file_path "d" j
      · rw [if_pos hq] at hbq
        obtain rfl := Option.some.inj hbq
        exact ⟨⟨128, 128, 5⟩, rfl, rfl, rfl⟩
      · rw [if_neg hq] at hbq
        exact Option.noConfusion hbq)
    (by decide) (by decide) (by decide)

/-- Inverting the success line: if an iteration's console line is the
success line, then the chain open–decode–resize–save all succeeded and
the step wrote the saved bytes at the derived path. -/
theorem step_success_inv (lib : ImageLib) (dir : Path) (fs : FS) (i : Nat)
    (h : (step lib dir fs i).2 = [successLine (file_path dir i)]) :
    ∃ b img rimg ob,
      fsRead fs (file_path dir i) = some b ∧
      lib.decode b = Except.ok img ∧
      lib.resizeOp img targetSize Filter.lanczos = Except.ok rimg ∧
      lib.save rimg (file_path dir i) = SaveOutcome.written ob ∧
      (step lib dir fs i).1 = fsWrite fs (file_path dir i) ob := by
  cases hb : fsRead fs (file_path dir i) with
  | none =>
      have hex : fsExists fs (file_path dir i) = false := by rw [fsExists, hb]; rfl
      have hstep : step lib dir fs i = (fs, [notFoundLine (filename i)]) := by
        rw [step, hex]; simp
      rw [hstep] at h
      injection h with h1 _
      exact absurd h1.symm (successLine_ne_notFoundLine _ _)
  | some b =>
      have hex : fsExists fs (file_path dir i) = true := by rw [fsExists, hb]; rfl
      have hstep : step lib dir fs i =
          resize_image lib fs (file_path dir i) targetSize := by
        rw [step, hex]; simp
      rw [hstep] at h ⊢
      cases hd : lib.decode b with
      | error e =>
          rw [resize_image_decode_err lib fs (file_path dir i) targetSize hb hd] at h
          injection h with h1 _
          exact absurd h1.symm (successLine_ne_errorLine _ _ _)
      | ok img =>
          cases hr : lib.resizeOp img targetSize Filter.lanczos with
          | error e =>
              rw [resize_image_resize_err lib fs (file_path dir i) targetSize
                hb hd hr] at h
              injection h with h1 _
              exact absurd h1.symm (successLine_ne_errorLine _ _ _)
          | ok rimg =>
              cases hs : lib.save rimg (file_path dir i) with
              | written ob =>
                  refine ⟨b, img, rimg, ob, rfl, hd, hr, hs, ?_⟩
                  rw [resize_image_saved lib fs (file_path dir i) targetSize
                    hb hd hr hs]
              | failed e w =>
                  rw [resize_image_save_failed lib fs (file_path dir i) targetSize
                    hb hd hr hs] at h
                  injection h with h1 _
                  exact absurd h1.symm (successLine_ne_errorLine _ _ _)

/-- C10: for every index `i` in 1..50, `main`'s console output contains
exactly one line for that index — at position `i - 1`, between the lines
of the earlier and the later indices — and that line is a success line,
an error line or a not-found line; the three forms are pairwise distinct
strings; and the success line appears only if the save to disk completed
without raising (in which case the step wrote exactly the saved bytes). -/
theorem claim_C10_one_line_per_index (lib : ImageLib) (dir : Path) (fs : FS)
    (i : Nat) (hi : i ∈ List.range' 1 50) :
    ∃ l : String,
      (step lib dir (prefixFS lib dir fs i) i).2 = [l] ∧
      (main lib dir fs).2 =
        (runIndices lib dir (List.range' 1 (i - 1)) fs).2 ++
          l :: (runIndices lib dir (List.range' (i + 1) (50 - i))
            (step lib dir (prefixFS lib dir fs i) i).1).2 ∧
      (runIndices lib dir (List.range' 1 (i - 1)) fs).2.length = i - 1 ∧
      (l = successLine (file_path dir i) ∨
        (∃ e, l = errorLine (file_path dir i) e) ∨
        l = notFoundLine (filename i)) ∧
      (∀ p q e f, successLine p ≠ errorLine q e ∧ successLine p ≠ notFoundLine f ∧
        errorLine q e ≠ notFoundLine f) ∧
      (l = successLine (file_path dir i) →
        ∃ b img rimg ob,
          fsRead (prefixFS lib dir fs i) (file_path dir i) = some b ∧
          lib.decode b = Except.ok img ∧
          lib.resizeOp img targetSize Filter.lanczos = Except.ok rimg ∧
          lib.save rimg (file_path dir i) = SaveOutcome.written ob ∧
          (step lib dir (prefixFS lib dir fs i) i).1 =
            fsWrite (prefixFS lib dir fs i) (file_path dir i) ob) := by
  obtain ⟨h1, h2⟩ := List.mem_range'_1.mp hi
  obtain ⟨l, hl, hforms⟩ : ∃ l, (step lib dir (prefixFS lib dir fs i) i).2 = [l] ∧
      (l = successLine (file_path dir i) ∨
        (∃ e, l = errorLine (file_path dir i) e) ∨
        l = notFoundLine (filename i)) := by
    rcases step_log lib dir (prefixFS lib dir fs i) i with h | ⟨e, h⟩ | h
    · exact ⟨_, h, Or.inl rfl⟩
    · exact ⟨_, h, Or.inr (Or.inl ⟨e, rfl⟩)⟩
    · exact ⟨_, h, Or.inr (Or.inr rfl)⟩
  refine ⟨l, hl, ?_, ?_, hforms, ?_, ?_⟩
  · rw [main_decomp lib dir fs i h1 (by omega)]
    simp only [hl]
    simp [List.append_assoc]
  · rw [runIndices_log_length, List.length_range']
  · exact fun p q e f =>
      ⟨successLine_ne_errorLine p q e, successLine_ne_notFoundLine p f,
       errorLine_ne_notFoundLine q e f⟩
  · intro hsucc
    rw [hsucc] at hl
    exact step_success_inv lib dir (prefixFS lib dir fs i) i hl

/-- Witness for C10 at index 1 on the empty filesystem. -/
theorem claim_C10_one_line_per_index_witness :
    ∃ l : String,
      (step pngLib "d" (prefixFS pngLib "d" [] 1) 1).2 = [l] ∧
      (main pngLib "d" []).2 =
        (runIndices pngLib "d" (List.range' 1 (1 - 1)) []).2 ++
          l :: (runIndices pngLib "d" (List.range' (1 + 1) (50 - 1))
            (step pngLib "d" (prefixFS pngLib "d" [] 1) 1).1).2 ∧
      (runIndices pngLib "d" (List.range' 1 (1 - 1)) []).2.length = 1 - 1 ∧
      (l = successLine (file_path "d" 1) ∨
        (∃ e, l = errorLine (file_path "d" 1) e) ∨
        l = notFoundLine (filename 1)) ∧
      (∀ p q e f, successLine p ≠ errorLine q e ∧ successLine p ≠ notFoundLine f ∧
        errorLine q e ≠ notFoundLine f) ∧
      (l = successLine (file_path "d" 1) →
        ∃ b img rimg ob,
          fsRead (prefixFS pngLib "d" [] 1) (file_path "d" 1) = some b ∧
          pngLib.decode b = Except.ok img ∧
          pngLib.resizeOp img targetSize Filter.lanczos = Except.ok rimg ∧
          pngLib.save rimg (file_path "d" 1) = SaveOutcome.written ob ∧
          (step pngLib "d" (prefixFS pngLib "d" [] 1) 1).1 =
            fsWrite (prefixFS pngLib "d" [] 1) (file_path "d" 1) ob) :=
  claim_C10_one_line_per_index pngLib "d" [] 1 (by decide)

end ResizePy
